import Mathlib

/-!
Verification of the Google Scholar metrics scraper (`scripts/fetch_scholar.py`).

The script has two components with decision logic:
  * `fetch_profile` — builds the profile URL, performs the HTTP GET (via a
    requests Session; retries happen inside the session), classifies the
    response (block/CAPTCHA detection, HTTP errors);
  * `parse_metrics` — extracts (citations, h-index, i10-index) from the page
    through a layered fallback: id-marked table, class-marked elements,
    block-phrase detection, label-proximity regex.

The page content is modelled as the parsed document tree (what BeautifulSoup
produces); the raw HTML string the regex strategy operates on is the
serialisation `render` of that tree.  Python strings are modelled as `List
Char`; Python exceptions as an error sum type; sequential statements whose
exceptions propagate as explicit matches on `Except` values.
-/

set_option linter.unusedVariables false

deriving instance DecidableEq for Except

namespace Scholar

/-- Characters of a Python string. -/
abbrev Chars := List Char

def strChars (s : String) : Chars := s.data

/-- A node of the parsed HTML document (the tree BeautifulSoup produces):
either a navigable string or a tag with name, optional id attribute, class
list, and children. -/
inductive Node where
  | text (s : String)
  | elem (tag : String) (idAttr : Option String) (classes : List String)
      (children : List Node)

def childrenOf : Node → List Node
  | .text _ => []
  | .elem _ _ _ ch => ch

mutual

/-- A node together with all its descendants, in document (pre-)order. -/
def nodeAll : Node → List Node
  | .text s => [.text s]
  | .elem t i c ch => .elem t i c ch :: allNodes ch

/-- All nodes of a forest in document (pre-)order: each node followed by its
subtree.  This is BeautifulSoup's `descendants` iteration order. -/
def allNodes : List Node → List Node
  | [] => []
  | n :: ns => nodeAll n ++ allNodes ns

end

mutual

/-- The text-node strings of a subtree, in document order. -/
def nodeTexts : Node → List Chars
  | .text s => [strChars s]
  | .elem _ _ _ ch => textsOf ch

/-- The strings of all text nodes of a forest, in document order
(BeautifulSoup's `strings`). -/
def textsOf : List Node → List Chars
  | [] => []
  | n :: ns => nodeTexts n ++ textsOf ns

end

/-- Matcher for `soup.find('table', id='gsc_rsb_st')`. -/
def isMetricsTable : Node → Bool
  | .elem t i _ _ => t == "table" && i == some "gsc_rsb_st"
  | .text _ => false

/-- Matcher for `soup.find_all(class_='gsc_rsb_std')` (multi-valued class
attribute containing the marker class). -/
def hasStdClass : Node → Bool
  | .elem _ _ cls _ => cls.contains "gsc_rsb_std"
  | .text _ => false

def tagIs (tag : String) : Node → Bool
  | .elem t _ _ _ => t == tag
  | .text _ => false

/-- `soup.find(...)`: first node in document order satisfying the matcher. -/
def soupFind (p : Node → Bool) (doc : List Node) : Option Node :=
  (allNodes doc).find? p

/-- `tag.find_all(name)`: all proper descendants with the given tag name, in
document order. -/
def find_all_tag (tag : String) (n : Node) : List Node :=
  (allNodes (childrenOf n)).filter (tagIs tag)

/-- Python `str.strip()` whitespace set (space, tab, newline, carriage
return, vertical tab, form feed). -/
def isPySpace (c : Char) : Bool :=
  c == ' ' || c == '\t' || c == '\n' || c == '\r' || c == '\x0b' || c == '\x0c'

/-- Python `str.strip()`. -/
def pyStrip (l : Chars) : Chars :=
  ((l.dropWhile isPySpace).reverse.dropWhile isPySpace).reverse

/-- Python `str.lower()`. -/
def pyLower (l : Chars) : Chars := l.map Char.toLower

/-- Contiguous-substring occurrence test, by scanning every suffix. -/
def isInfixOfList (pat : Chars) : Chars → Bool
  | [] => pat.isEmpty
  | c :: cs => pat.isPrefixOf (c :: cs) || isInfixOfList pat cs

/-- Python `pat in s` substring test. -/
def containsSub (s pat : Chars) : Bool := isInfixOfList pat s

/-- Python `.replace(',', '')`: removing every comma is filtering them out. -/
def stripCommas (l : Chars) : Chars := l.filter (fun c => c != ',')

def digitsVal (l : Chars) : Nat := l.foldl (fun n c => 10 * n + (c.toNat - 48)) 0

def digitsOf (l : Chars) : Option Nat :=
  if !l.isEmpty && l.all Char.isDigit then some (digitsVal l) else none

/-- Python `int(str)`: optional surrounding whitespace, an optional sign,
then decimal digits; `none` where `int()` raises ValueError.  (Digit-group
underscores, which no caller produces, are not modelled.) -/
def pyInt? (s : Chars) : Option Int :=
  match pyStrip s with
  | [] => none
  | c :: cs =>
    if c = '-' then (digitsOf cs).map (fun n => -(Int.ofNat n))
    else if c = '+' then (digitsOf cs).map (fun n => Int.ofNat n)
    else (digitsOf (c :: cs)).map (fun n => Int.ofNat n)

/-- `tag.text`: concatenation of all text-node strings of the subtree. -/
def nodeText (n : Node) : Chars := List.flatten (nodeTexts n)

/-- `tag.get_text(strip=True)`: each string stripped, whitespace-only
strings contributing nothing, concatenated. -/
def getTextStrip (n : Node) : Chars := List.flatten ((nodeTexts n).map pyStrip)

/-- `soup.get_text(separator=' ').lower()` over the whole document. -/
def docTextLower (doc : List Node) : Chars :=
  pyLower (List.intercalate [' '] (textsOf doc))

def escapeChar (c : Char) : Chars :=
  if c = '&' then strChars "&amp;"
  else if c = '<' then strChars "&lt;"
  else if c = '>' then strChars "&gt;"
  else [c]

def renderAttrs (idAttr : Option String) (classes : List String) : Chars :=
  (match idAttr with
   | some v => strChars " id=\"" ++ strChars v ++ ['"']
   | none => []) ++
  (if classes.isEmpty then []
   else strChars " class=\"" ++ List.intercalate [' '] (classes.map strChars) ++ ['"'])

mutual

/-- Serialisation of one node back to HTML source text. -/
def nodeRender : Node → Chars
  | .text s => List.flatten ((strChars s).map escapeChar)
  | .elem t i cls ch =>
      '<' :: (strChars t ++ renderAttrs i cls) ++ '>' :: render ch
        ++ strChars "</" ++ strChars t ++ ['>']

/-- The raw HTML string the document tree was parsed from (text nodes appear
entity-escaped in the source the regex strategy scans). -/
def render : List Node → Chars
  | [] => []
  | n :: ns => nodeRender n ++ render ns

end

/-- Case-insensitive character comparison (re.I). -/
def ciEq (a b : Char) : Bool := a.toLower == b.toLower

/-- Match a literal label case-insensitively at the head, returning the
remainder. -/
def matchLabel : Chars → Chars → Option Chars
  | [], rest => some rest
  | _ :: _, [] => none
  | a :: ls, c :: cs => if ciEq a c then matchLabel ls cs else none

def isSkipChar (c : Char) : Bool := !c.isDigit && c != '\n'

def isGroupChar (c : Char) : Bool := c.isDigit || c == ','

/-- Group captured by the tail `[^0-9\n]*([0-9,]+)` of the pattern at a given
position, if it matches there.  The first subpattern greedily takes the
maximal run of non-digit, non-newline characters; when the character ending
that run is a digit the group is the following maximal run of digits and
commas.  Otherwise (newline or end of input) the engine backtracks into the
skipped run: the only skipped characters the group class accepts are commas,
and the first backtracking success is at the rightmost comma, whose maximal
group run is that single comma. -/
def groupAt (rest : Chars) : Option Chars :=
  let skip := rest.takeWhile isSkipChar
  let tail := rest.drop skip.length
  match tail with
  | c :: _ =>
    if c.isDigit then some (tail.takeWhile isGroupChar)
    else if skip.contains ',' then some [','] else none
  | [] => if skip.contains ',' then some [','] else none

/-- Model of `re.search(rf'{label}[^0-9\n]*([0-9,]+)', html, re.I)` for a
literal label: leftmost position where the whole pattern matches, returning
the captured group. -/
def reSearch (label : Chars) : Chars → Option Chars
  | [] => none
  | c :: cs =>
    match matchLabel label (c :: cs) with
    | some rest =>
      match groupAt rest with
      | some g => some g
      | none => reSearch label cs
    | none => reSearch label cs

/-- Python exceptions raised inside `parse_metrics`. -/
inductive PErr where
  | indexError
  | valueError (s : Chars)
  | blocked (snippet : Chars)
  | notFound
deriving DecidableEq, Repr

/-- `val_from_row(i)`: `rows[i].find_all('td')[1].text.strip().replace(',', '')`;
out-of-range indexing raises IndexError. -/
def val_from_row (rows : List Node) (i : Nat) : Except PErr Chars :=
  match rows[i]? with
  | none => .error .indexError
  | some row =>
    match (find_all_tag "td" row)[1]? with
    | none => .error .indexError
    | some td => .ok (stripCommas (pyStrip (nodeText td)))

/-- The raw text of the second data cell of row `i` of a table, before
stripping: `rows[i].find_all('td')[1].text` when those accesses are in
range. -/
def rawCell (t : Node) (i : Nat) : Option Chars :=
  ((find_all_tag "tr" t)[i]?).bind fun row =>
    ((find_all_tag "td" row)[1]?).map nodeText

/-- The structured-table branch of `parse_metrics`:
`int(val_from_row(0))`, `int(val_from_row(1))`, `int(val_from_row(2))`
evaluated in this order, any exception propagating. -/
def tableStep (table : Node) : Except PErr (Int × Int × Int) :=
  let rows := find_all_tag "tr" table
  match val_from_row rows 0 with
  | .error e => .error e
  | .ok s0 =>
    match pyInt? s0 with
    | none => .error (.valueError s0)
    | some c =>
      match val_from_row rows 1 with
      | .error e => .error e
      | .ok s1 =>
        match pyInt? s1 with
        | none => .error (.valueError s1)
        | some h =>
          match val_from_row rows 2 with
          | .error e => .error e
          | .ok s2 =>
            match pyInt? s2 with
            | none => .error (.valueError s2)
            | some i => .ok (c, h, i)

/-- The list comprehension
`[int(s.get_text(strip=True).replace(',', '')) for s in ...]`:
`none` when some conversion raises ValueError. -/
def intsOf : List Node → Option (List Int)
  | [] => some []
  | s :: rest =>
    match pyInt? (stripCommas (getTextStrip s)) with
    | none => none
    | some v => (intsOf rest).map (fun vs => v :: vs)

def classVals (stds : List Node) : Option (Int × Int × Int) :=
  match intsOf (stds.take 3) with
  | some (a :: b :: c :: _) => some (a, b, c)
  | _ => none

/-- The class-marker branch: guarded by `stds and len(stds) >= 3`; any
exception in the conversions is swallowed (`except: pass`). -/
def classStep (doc : List Node) : Option (Int × Int × Int) :=
  let stds := (allNodes doc).filter hasStdClass
  if 3 ≤ stds.length then classVals stds else none

/-- `find_num(label_variants)`: first label whose regex matches wins; an
`int()` failure on a matched group propagates (it is not caught). -/
def find_num (labels : List Chars) (html : Chars) : Except PErr (Option Int) :=
  match labels with
  | [] => .ok none
  | l :: ls =>
    match reSearch l html with
    | some g =>
      match pyInt? (stripCommas g) with
      | some n => .ok (some n)
      | none => .error (.valueError (stripCommas g))
    | none => find_num ls html

/-- The last-resort label-proximity regex branch of `parse_metrics`:
the three `find_num` calls run in order, exceptions propagating; success
requires all three to have found a value. -/
def regexStep (html : Chars) : Except PErr (Int × Int × Int) :=
  match find_num [strChars "Citations", strChars "Cited by"] html with
  | .error e => .error e
  | .ok cit =>
    match find_num [strChars "h-index", strChars "h index"] html with
    | .error e => .error e
    | .ok hin =>
      match find_num [strChars "i10-index", strChars "i10 index", strChars "i10"] html with
      | .error e => .error e
      | .ok i10 =>
        match cit, hin, i10 with
        | some c, some h, some i => .ok (c, h, i)
        | _, _, _ => .error .notFound

/-- `parse_metrics(html)`: id-marked table first; else class-marked elements;
else block-phrase detection on the visible text; else the regex strategy on
the raw HTML; else the descriptive not-found error. -/
def parse_metrics (doc : List Node) : Except PErr (Int × Int × Int) :=
  match soupFind isMetricsTable doc with
  | some table => tableStep table
  | none =>
    match classStep doc with
    | some v => .ok v
    | none =>
      let text := docTextLower doc
      if containsSub text (strChars "unusual traffic")
         || containsSub text (strChars "our systems have detected")
         || containsSub text (strChars "captcha") then
        .error (.blocked (text.take 500))
      else
        regexStep (render doc)

/-- An HTTP response as `session.get` returns it: status code and body (the
body's parsed tree; its raw text is `render`). -/
structure HttpResponse where
  status : Nat
  body : List Node

/-- Failures of `fetch_profile` (all raised as ValueError / HTTPError in the
script, distinguished here by their condition). -/
inductive FetchErr where
  | emptyUser
  | networkError (msg : String)
  | blocked (status : Nat)
  | httpError (status : Nat)
deriving DecidableEq, Repr

def profileUrl (userId : String) : String :=
  "https://scholar.google.com/citations?user=" ++ userId ++ "&hl=en"

/-- The block-phrase scan `fetch_profile` performs on `r.text.lower()`. -/
def blockedBody (r : HttpResponse) : Bool :=
  let text := pyLower (render r.body)
  containsSub text (strChars "captcha")
    || containsSub text (strChars "unusual traffic")
    || containsSub text (strChars "our systems have detected")

/-- `fetch_profile(user_id)`.  `transport` models `session.get` (retries on
429/5xx happen inside it): it returns the final response, or the message of
the `requests.RequestException` it raised.  `raise_for_status()` raises
exactly for status codes 400–599. -/
def fetch_profile (userId : String)
    (transport : String → Except String HttpResponse) :
    Except FetchErr (List Node × String) :=
  if userId = "" then .error .emptyUser
  else
    let url := profileUrl userId
    match transport url with
    | .error e => .error (.networkError e)
    | .ok r =>
      if r.status == 403 || blockedBody r then .error (.blocked r.status)
      else if 400 ≤ r.status ∧ r.status < 600 then .error (.httpError r.status)
      else .ok (r.body, url)

/-- Exit code of `main()` for a given `--user` value: argparse accepts the
empty string, which the explicit guard maps to exit code 2; any exception
from fetching or parsing exits 1; success exits 0. -/
def main_run (user : String)
    (transport : String → Except String HttpResponse) : Nat :=
  if user = "" then 2
  else
    match fetch_profile user transport with
    | .error _ => 1
    | .ok (body, _) =>
      match parse_metrics body with
      | .error _ => 1
      | .ok _ => 0

/-! ## Helper lemmas -/

theorem isInfixOfList_iff {pat s : Chars} : isInfixOfList pat s = true ↔ pat <:+: s := by
  induction s with
  | nil => simp [isInfixOfList, List.isEmpty_iff]
  | cons c cs ih =>
    simp [isInfixOfList, List.infix_cons_iff, ih]

theorem containsSub_mono {s p q : Chars} (hpq : q <+: p)
    (h : containsSub s p = true) : containsSub s q = true := by
  rw [containsSub, isInfixOfList_iff] at h ⊢
  exact (hpq.isInfix).trans h

theorem val_from_row_ok {rows : List Node} {i : Nat} {row td : Node}
    (hr : rows[i]? = some row)
    (htd : (find_all_tag "td" row)[1]? = some td) :
    val_from_row rows i = .ok (stripCommas (pyStrip (nodeText td))) := by
  simp only [val_from_row, hr, htd]

theorem val_from_row_error {rows : List Node} {i : Nat} {e : PErr}
    (h : val_from_row rows i = .error e) : e = .indexError := by
  unfold val_from_row at h
  split at h
  · injection h with h; exact h.symm
  · split at h
    · injection h with h; exact h.symm
    · simp at h

theorem rawCell_eq_some {t : Node} {i : Nat} {s : Chars}
    (h : rawCell t i = some s) :
    ∃ row, (find_all_tag "tr" t)[i]? = some row ∧
      ∃ td, (find_all_tag "td" row)[1]? = some td ∧ nodeText td = s := by
  unfold rawCell at h
  rw [Option.bind_eq_some] at h
  obtain ⟨row, hr, hm⟩ := h
  rw [Option.map_eq_some'] at hm
  obtain ⟨td, htd, he⟩ := hm
  exact ⟨row, hr, td, htd, he⟩

mutual

theorem nodeAll_texts_sub : ∀ (n m : Node), m ∈ nodeAll n →
    ∀ s, s ∈ nodeTexts m → s ∈ nodeTexts n
  | .text str, m, hm, s, hs => by
      simp only [nodeAll, List.mem_singleton] at hm
      subst hm; exact hs
  | .elem t i c ch, m, hm, s, hs => by
      simp only [nodeAll, List.mem_cons] at hm
      rcases hm with rfl | hm
      · exact hs
      · simp only [nodeTexts]
        exact allNodes_texts_sub ch m hm s hs

theorem allNodes_texts_sub : ∀ (doc : List Node) (m : Node), m ∈ allNodes doc →
    ∀ s, s ∈ nodeTexts m → s ∈ textsOf doc
  | [], m, hm, s, hs => by simp [allNodes] at hm
  | n :: ns, m, hm, s, hs => by
      simp only [allNodes, List.mem_append] at hm
      rcases hm with hm | hm
      · simp only [textsOf, List.mem_append]
        exact Or.inl (nodeAll_texts_sub n m hm s hs)
      · simp only [textsOf, List.mem_append]
        exact Or.inr (allNodes_texts_sub ns m hm s hs)

end

theorem nodeTexts_of_child_desc {p m : Node} {s : Chars}
    (hm : m ∈ allNodes (childrenOf p)) (hs : s ∈ nodeTexts m) :
    s ∈ nodeTexts p := by
  cases p with
  | text str => simp [childrenOf, allNodes] at hm
  | elem t i c ch =>
    simp only [childrenOf] at hm
    simpa [nodeTexts] using allNodes_texts_sub ch m hm s hs

theorem mem_pyStrip {x : Char} {l : Chars} (h : x ∈ pyStrip l) : x ∈ l := by
  unfold pyStrip at h
  rw [List.mem_reverse] at h
  have h2 := (List.dropWhile_sublist (l := (l.dropWhile isPySpace).reverse)
    isPySpace).subset h
  rw [List.mem_reverse] at h2
  exact (List.dropWhile_sublist (l := l) isPySpace).subset h2

theorem pyInt?_nonneg {s : Chars} {n : Int} (hminus : ('-' : Char) ∉ s)
    (h : pyInt? s = some n) : 0 ≤ n := by
  unfold pyInt? at h
  cases hps : pyStrip s with
  | nil => simp only [hps] at h; exact absurd h (by simp)
  | cons c cs =>
    simp only [hps] at h
    have hc : c ∈ s := mem_pyStrip (hps ▸ List.mem_cons_self c cs)
    by_cases h1 : c = '-'
    · subst h1; exact absurd hc hminus
    · rw [if_neg h1] at h
      by_cases h2 : c = '+'
      · rw [if_pos h2, Option.map_eq_some'] at h
        obtain ⟨k, _, hk⟩ := h
        have hk2 : (k : Int) = n := hk
        omega
      · rw [if_neg h2, Option.map_eq_some'] at h
        obtain ⟨k, _, hk⟩ := h
        have hk2 : (k : Int) = n := hk
        omega

theorem groupAt_chars {rest g : Chars} (h : groupAt rest = some g) :
    ∀ x ∈ g, isGroupChar x = true := by
  simp only [groupAt] at h
  split at h
  · split at h
    · injection h with h
      subst h
      intro x hx
      exact List.mem_takeWhile_imp hx
    · split at h
      · injection h with h
        subst h
        intro x hx
        rw [List.mem_singleton] at hx
        subst hx
        decide
      · exact absurd h (by simp)
  · split at h
    · injection h with h
      subst h
      intro x hx
      rw [List.mem_singleton] at hx
      subst hx
      decide
    · exact absurd h (by simp)

theorem reSearch_group {label s g : Chars} (h : reSearch label s = some g) :
    ∀ x ∈ g, isGroupChar x = true := by
  induction s with
  | nil => simp [reSearch] at h
  | cons c cs ih =>
    simp only [reSearch] at h
    cases hm : matchLabel label (c :: cs) with
    | none => simp only [hm] at h; exact ih h
    | some rest =>
      simp only [hm] at h
      cases hg : groupAt rest with
      | none => simp only [hg] at h; exact ih h
      | some g2 =>
        simp only [hg] at h
        injection h with h
        subst h
        exact groupAt_chars hg

theorem find_num_nonneg {labels : List Chars} {html : Chars} {v : Int}
    (h : find_num labels html = .ok (some v)) : 0 ≤ v := by
  induction labels with
  | nil => simp [find_num] at h
  | cons l ls ih =>
    simp only [find_num] at h
    cases hr : reSearch l html with
    | none => simp only [hr] at h; exact ih h
    | some g =>
      simp only [hr] at h
      cases hp : pyInt? (stripCommas g) with
      | none => simp only [hp] at h; simp at h
      | some n =>
        simp only [hp] at h
        have hvn : n = v := by
          injection h with h; injection h
        have hnm : ('-' : Char) ∉ stripCommas g := by
          intro hx
          exact absurd (reSearch_group hr '-' (List.mem_of_mem_filter hx))
            (by decide)
        exact hvn ▸ pyInt?_nonneg hnm hp

theorem val_from_row_ok_inv {rows : List Node} {i : Nat} {s : Chars}
    (h : val_from_row rows i = .ok s) :
    ∃ row td, rows[i]? = some row ∧ (find_all_tag "td" row)[1]? = some td ∧
      s = stripCommas (pyStrip (nodeText td)) := by
  unfold val_from_row at h
  cases hr : rows[i]? with
  | none => rw [hr] at h; simp at h
  | some row =>
    simp only [hr] at h
    cases htd : (find_all_tag "td" row)[1]? with
    | none => simp only [htd] at h; simp at h
    | some td =>
      simp only [htd] at h
      refine ⟨row, td, rfl, htd, ?_⟩
      injection h with h
      exact h.symm

theorem val_from_row_noMinus {doc : List Node} {table : Node} {i : Nat} {s : Chars}
    (htb : table ∈ allNodes doc) (hm : ∀ s ∈ textsOf doc, ('-' : Char) ∉ s)
    (hv : val_from_row (find_all_tag "tr" table) i = .ok s) :
    ('-' : Char) ∉ s := by
  obtain ⟨row, td, hrow, htd, rfl⟩ := val_from_row_ok_inv hv
  intro hx
  have hx1 : ('-' : Char) ∈ pyStrip (nodeText td) := List.mem_of_mem_filter hx
  have hx2 : ('-' : Char) ∈ nodeText td := mem_pyStrip hx1
  rw [nodeText, List.mem_flatten] at hx2
  obtain ⟨l, hl, hxl⟩ := hx2
  have hrowmem : row ∈ allNodes (childrenOf table) :=
    List.mem_of_mem_filter (List.getElem?_mem hrow)
  have htdmem : td ∈ allNodes (childrenOf row) :=
    List.mem_of_mem_filter (List.getElem?_mem htd)
  have l1 : l ∈ nodeTexts row := nodeTexts_of_child_desc htdmem hl
  have l2 : l ∈ nodeTexts table := nodeTexts_of_child_desc hrowmem l1
  exact hm l (allNodes_texts_sub doc table htb l l2) hxl

theorem getTextStrip_noMinus {doc : List Node} {n : Node}
    (hn : n ∈ allNodes doc) (hm : ∀ s ∈ textsOf doc, ('-' : Char) ∉ s) :
    ('-' : Char) ∉ stripCommas (getTextStrip n) := by
  intro hx
  have hx1 : ('-' : Char) ∈ getTextStrip n := List.mem_of_mem_filter hx
  rw [getTextStrip, List.mem_flatten] at hx1
  obtain ⟨l', hl', hxl'⟩ := hx1
  rw [List.mem_map] at hl'
  obtain ⟨l, hl, rfl⟩ := hl'
  exact hm l (allNodes_texts_sub doc n hn l hl) (mem_pyStrip hxl')

theorem intsOf_mem {l : List Node} {vs : List Int} (h : intsOf l = some vs) :
    ∀ v ∈ vs, ∃ n ∈ l, pyInt? (stripCommas (getTextStrip n)) = some v := by
  induction l generalizing vs with
  | nil =>
    simp only [intsOf] at h
    injection h with h
    subst h
    simp
  | cons x xs ih =>
    simp only [intsOf] at h
    cases hpx : pyInt? (stripCommas (getTextStrip x)) with
    | none => simp only [hpx] at h; exact absurd h (by simp)
    | some v0 =>
      simp only [hpx, Option.map_eq_some'] at h
      obtain ⟨vs', hvs', rfl⟩ := h
      intro v hv
      rcases List.mem_cons.mp hv with rfl | hv
      · exact ⟨x, List.mem_cons_self x xs, hpx⟩
      · obtain ⟨n, hn, hpn⟩ := ih hvs' v hv
        exact ⟨n, List.mem_cons_of_mem x hn, hpn⟩

theorem tableStep_ok {table : Node} {c h i : Int}
    (hp : tableStep table = .ok (c, h, i)) :
    ∃ s0 s1 s2,
      val_from_row (find_all_tag "tr" table) 0 = .ok s0 ∧ pyInt? s0 = some c ∧
      val_from_row (find_all_tag "tr" table) 1 = .ok s1 ∧ pyInt? s1 = some h ∧
      val_from_row (find_all_tag "tr" table) 2 = .ok s2 ∧ pyInt? s2 = some i := by
  simp only [tableStep] at hp
  cases h0 : val_from_row (find_all_tag "tr" table) 0 with
  | error e => simp only [h0] at hp; exact absurd hp (by simp)
  | ok s0 =>
    simp only [h0] at hp
    cases hp0 : pyInt? s0 with
    | none => simp only [hp0] at hp; exact absurd hp (by simp)
    | some c0 =>
      simp only [hp0] at hp
      cases h1 : val_from_row (find_all_tag "tr" table) 1 with
      | error e => simp only [h1] at hp; exact absurd hp (by simp)
      | ok s1 =>
        simp only [h1] at hp
        cases hp1 : pyInt? s1 with
        | none => simp only [hp1] at hp; exact absurd hp (by simp)
        | some h0v =>
          simp only [hp1] at hp
          cases h2 : val_from_row (find_all_tag "tr" table) 2 with
          | error e => simp only [h2] at hp; exact absurd hp (by simp)
          | ok s2 =>
            simp only [h2] at hp
            cases hp2 : pyInt? s2 with
            | none => simp only [hp2] at hp; exact absurd hp (by simp)
            | some i0 =>
              simp only [hp2, Except.ok.injEq, Prod.mk.injEq] at hp
              obtain ⟨rfl, rfl, rfl⟩ := hp
              exact ⟨s0, s1, s2, rfl, hp0, rfl, hp1, rfl, hp2⟩

theorem regexStep_ok {html : Chars} {c h i : Int}
    (hp : regexStep html = .ok (c, h, i)) :
    find_num [strChars "Citations", strChars "Cited by"] html = .ok (some c) ∧
    find_num [strChars "h-index", strChars "h index"] html = .ok (some h) ∧
    find_num [strChars "i10-index", strChars "i10 index", strChars "i10"] html =
      .ok (some i) := by
  simp only [regexStep] at hp
  cases e1 : find_num [strChars "Citations", strChars "Cited by"] html with
  | error e => simp only [e1] at hp; exact absurd hp (by simp)
  | ok cit =>
    simp only [e1] at hp
    cases e2 : find_num [strChars "h-index", strChars "h index"] html with
    | error e => simp only [e2] at hp; exact absurd hp (by simp)
    | ok hin =>
      simp only [e2] at hp
      cases e3 : find_num [strChars "i10-index", strChars "i10 index",
          strChars "i10"] html with
      | error e => simp only [e3] at hp; exact absurd hp (by simp)
      | ok i10 =>
        simp only [e3] at hp
        cases cit with
        | none =>
          cases hin <;> cases i10 <;> simp at hp
        | some c0 =>
          cases hin with
          | none => cases i10 <;> simp at hp
          | some h0 =>
            cases i10 with
            | none => simp at hp
            | some i0 =>
              simp only [Except.ok.injEq, Prod.mk.injEq] at hp
              obtain ⟨rfl, rfl, rfl⟩ := hp
              exact ⟨rfl, rfl, rfl⟩

theorem classStep_nonneg {doc : List Node} {c h i : Int}
    (hm : ∀ s ∈ textsOf doc, ('-' : Char) ∉ s)
    (hcs : classStep doc = some (c, h, i)) : 0 ≤ c ∧ 0 ≤ h ∧ 0 ≤ i := by
  simp only [classStep] at hcs
  split at hcs
  · simp only [classVals] at hcs
    cases hio : intsOf (((allNodes doc).filter hasStdClass).take 3) with
    | none => simp only [hio] at hcs; exact absurd hcs (by simp)
    | some vs =>
      simp only [hio] at hcs
      rcases vs with _ | ⟨a, _ | ⟨b, _ | ⟨d, rest⟩⟩⟩
      · exact absurd hcs (by simp)
      · exact absurd hcs (by simp)
      · exact absurd hcs (by simp)
      · simp only [Option.some.injEq, Prod.mk.injEq] at hcs
        obtain ⟨rfl, rfl, rfl⟩ := hcs
        have hmem := intsOf_mem hio
        obtain ⟨n1, hn1, hpn1⟩ := hmem a (by simp)
        obtain ⟨n2, hn2, hpn2⟩ := hmem b (by simp)
        obtain ⟨n3, hn3, hpn3⟩ := hmem d (by simp)
        have d1 : n1 ∈ allNodes doc :=
          List.mem_of_mem_filter (List.mem_of_mem_take hn1)
        have d2 : n2 ∈ allNodes doc :=
          List.mem_of_mem_filter (List.mem_of_mem_take hn2)
        have d3 : n3 ∈ allNodes doc :=
          List.mem_of_mem_filter (List.mem_of_mem_take hn3)
        exact ⟨pyInt?_nonneg (getTextStrip_noMinus d1 hm) hpn1,
          pyInt?_nonneg (getTextStrip_noMinus d2 hm) hpn2,
          pyInt?_nonneg (getTextStrip_noMinus d3 hm) hpn3⟩
  · exact absurd hcs (by simp)

end Scholar

namespace Scholar

/-! ## Claims -/

/-- C6: for the page whose content is only the freeform text
"Citations 42 h-index 5 i10-index 2" (no table, no class-marked elements, no
blocking phrase), the label-proximity regex strategy recovers all three
metrics and extraction returns (42, 5, 2). -/
theorem regex_strategy_freeform :
    parse_metrics [Node.text "Citations 42 h-index 5 i10-index 2"] =
      .ok (42, 5, 2) := by decide

/-- C9: extraction is deterministic (the embedding of `parse_metrics` is a
pure function of the page content — the source reads no mutable state): two
runs on byte-identical input give identical outcomes. -/
theorem parse_metrics_deterministic (d₁ d₂ : List Node) (h : d₁ = d₂) :
    parse_metrics d₁ = parse_metrics d₂ := by rw [h]

theorem parse_metrics_deterministic_witness :
    parse_metrics [Node.text "x"] = parse_metrics [Node.text "x"] :=
  parse_metrics_deterministic [Node.text "x"] [Node.text "x"] rfl

/-- C2 counterexample: the structured table is present and its first metric
cell "abc" is non-numeric; three well-formed class-marked elements follow,
but extraction does not fall through to them — it terminates with the
ValueError from `int('abc')`. -/
theorem table_parse_error_no_fallback_example :
    parse_metrics [Node.elem "table" (some "gsc_rsb_st") [] [
        Node.elem "tr" none [] [Node.elem "td" none [] [Node.text "Citations"],
          Node.elem "td" none [] [Node.text "abc"]],
        Node.elem "tr" none [] [Node.elem "td" none [] [Node.text "h-index"],
          Node.elem "td" none [] [Node.text "56"]],
        Node.elem "tr" none [] [Node.elem "td" none [] [Node.text "i10-index"],
          Node.elem "td" none [] [Node.text "7"]]],
      Node.elem "span" none ["gsc_rsb_std"] [Node.text "1"],
      Node.elem "span" none ["gsc_rsb_std"] [Node.text "2"],
      Node.elem "span" none ["gsc_rsb_std"] [Node.text "3"]] =
      .error (.valueError (strChars "abc")) ∧
    (Except.error (PErr.valueError (strChars "abc")) :
        Except PErr (Int × Int × Int)) ≠ .ok (1, 2, 3) := by
  exact ⟨by decide, by decide⟩

/-- C2 amended: when the structured metrics table is present and its first
metric cell is non-numeric after stripping commas, the whole extraction
terminates with that integer-parse error; the class-marker strategy is
attempted only when the table is absent. -/
theorem table_parse_error_aborts_extraction (doc : List Node) (t : Node)
    (ht : soupFind isMetricsTable doc = some t) (s : Chars)
    (hv : val_from_row (find_all_tag "tr" t) 0 = .ok s)
    (hn : pyInt? s = none) :
    parse_metrics doc = .error (.valueError s) := by
  simp only [parse_metrics, ht, tableStep, hv, hn]

theorem table_parse_error_aborts_extraction_witness :
    parse_metrics [Node.elem "table" (some "gsc_rsb_st") [] [
        Node.elem "tr" none [] [Node.elem "td" none [] [],
          Node.elem "td" none [] [Node.text "n/a"]]]] =
      .error (.valueError (strChars "n/a")) :=
  table_parse_error_aborts_extraction
    [Node.elem "table" (some "gsc_rsb_st") [] [
        Node.elem "tr" none [] [Node.elem "td" none [] [],
          Node.elem "td" none [] [Node.text "n/a"]]]]
    (Node.elem "table" (some "gsc_rsb_st") [] [
        Node.elem "tr" none [] [Node.elem "td" none [] [],
          Node.elem "td" none [] [Node.text "n/a"]]])
    rfl (strChars "n/a") rfl rfl

/-- C4: for any page containing the id-marked metrics table whose first
three rows have second data cells with text "1,234", "56" and "7",
extraction returns (1234, 56, 7) — row 0 is citations, row 1 h-index,
row 2 i10-index, comma separators stripped. -/
theorem table_strategy_correct (doc : List Node) (t : Node)
    (ht : soupFind isMetricsTable doc = some t)
    (h0 : rawCell t 0 = some (strChars "1,234"))
    (h1 : rawCell t 1 = some (strChars "56"))
    (h2 : rawCell t 2 = some (strChars "7")) :
    parse_metrics doc = .ok (1234, 56, 7) := by
  obtain ⟨r0, hr0, td0, htd0, he0⟩ := rawCell_eq_some h0
  obtain ⟨r1, hr1, td1, htd1, he1⟩ := rawCell_eq_some h1
  obtain ⟨r2, hr2, td2, htd2, he2⟩ := rawCell_eq_some h2
  have v0 := val_from_row_ok hr0 htd0
  have v1 := val_from_row_ok hr1 htd1
  have v2 := val_from_row_ok hr2 htd2
  rw [he0] at v0; rw [he1] at v1; rw [he2] at v2
  simp only [parse_metrics, ht, tableStep, v0, v1, v2]
  rfl

theorem table_strategy_correct_witness :
    parse_metrics [Node.elem "table" (some "gsc_rsb_st") [] [
        Node.elem "tr" none [] [Node.elem "td" none [] [Node.text "Citations"],
          Node.elem "td" none [] [Node.text "1,234"]],
        Node.elem "tr" none [] [Node.elem "td" none [] [Node.text "h-index"],
          Node.elem "td" none [] [Node.text "56"]],
        Node.elem "tr" none [] [Node.elem "td" none [] [Node.text "i10-index"],
          Node.elem "td" none [] [Node.text "7"]]]] = .ok (1234, 56, 7) :=
  table_strategy_correct
    [Node.elem "table" (some "gsc_rsb_st") [] [
        Node.elem "tr" none [] [Node.elem "td" none [] [Node.text "Citations"],
          Node.elem "td" none [] [Node.text "1,234"]],
        Node.elem "tr" none [] [Node.elem "td" none [] [Node.text "h-index"],
          Node.elem "td" none [] [Node.text "56"]],
        Node.elem "tr" none [] [Node.elem "td" none [] [Node.text "i10-index"],
          Node.elem "td" none [] [Node.text "7"]]]]
    (Node.elem "table" (some "gsc_rsb_st") [] [
        Node.elem "tr" none [] [Node.elem "td" none [] [Node.text "Citations"],
          Node.elem "td" none [] [Node.text "1,234"]],
        Node.elem "tr" none [] [Node.elem "td" none [] [Node.text "h-index"],
          Node.elem "td" none [] [Node.text "56"]],
        Node.elem "tr" none [] [Node.elem "td" none [] [Node.text "i10-index"],
          Node.elem "td" none [] [Node.text "7"]]])
    rfl rfl rfl rfl

/-- C5: for any page lacking the table but whose class-marked elements are
exactly three, with stripped texts "500", "10" and "3" in document order,
extraction returns (500, 10, 3). -/
theorem class_strategy_correct (doc : List Node) (e1 e2 e3 : Node)
    (ht : soupFind isMetricsTable doc = none)
    (hs : (allNodes doc).filter hasStdClass = [e1, e2, e3])
    (t1 : getTextStrip e1 = strChars "500")
    (t2 : getTextStrip e2 = strChars "10")
    (t3 : getTextStrip e3 = strChars "3") :
    parse_metrics doc = .ok (500, 10, 3) := by
  have v1 : pyInt? (stripCommas (getTextStrip e1)) = some 500 := by rw [t1]; decide
  have v2 : pyInt? (stripCommas (getTextStrip e2)) = some 10 := by rw [t2]; decide
  have v3 : pyInt? (stripCommas (getTextStrip e3)) = some 3 := by rw [t3]; decide
  have hc : classStep doc = some (500, 10, 3) := by
    simp only [classStep, hs, List.length_cons, List.length_nil, classVals,
      List.take, intsOf, v1, v2, v3, Option.map]
    norm_num
  simp only [parse_metrics, ht, hc]

theorem class_strategy_correct_witness :
    parse_metrics [Node.elem "span" none ["gsc_rsb_std"] [Node.text "500"],
      Node.elem "span" none ["gsc_rsb_std"] [Node.text "10"],
      Node.elem "span" none ["gsc_rsb_std"] [Node.text "3"]] = .ok (500, 10, 3) :=
  class_strategy_correct
    [Node.elem "span" none ["gsc_rsb_std"] [Node.text "500"],
      Node.elem "span" none ["gsc_rsb_std"] [Node.text "10"],
      Node.elem "span" none ["gsc_rsb_std"] [Node.text "3"]]
    (Node.elem "span" none ["gsc_rsb_std"] [Node.text "500"])
    (Node.elem "span" none ["gsc_rsb_std"] [Node.text "10"])
    (Node.elem "span" none ["gsc_rsb_std"] [Node.text "3"])
    rfl rfl rfl rfl rfl

/-- C1 counterexample: the visible page text contains the blocking phrase
"unusual traffic from your computer", yet a well-formed metrics table is
also present and extraction succeeds with the table values instead of
failing with a block-condition error. -/
theorem table_overrides_block_phrase :
    containsSub
        (docTextLower [Node.text "unusual traffic from your computer",
          Node.elem "table" (some "gsc_rsb_st") [] [
            Node.elem "tr" none [] [Node.elem "td" none [] [],
              Node.elem "td" none [] [Node.text "9"]],
            Node.elem "tr" none [] [Node.elem "td" none [] [],
              Node.elem "td" none [] [Node.text "8"]],
            Node.elem "tr" none [] [Node.elem "td" none [] [],
              Node.elem "td" none [] [Node.text "7"]]]])
        (strChars "unusual traffic from your computer") = true ∧
    parse_metrics [Node.text "unusual traffic from your computer",
      Node.elem "table" (some "gsc_rsb_st") [] [
        Node.elem "tr" none [] [Node.elem "td" none [] [],
          Node.elem "td" none [] [Node.text "9"]],
        Node.elem "tr" none [] [Node.elem "td" none [] [],
          Node.elem "td" none [] [Node.text "8"]],
        Node.elem "tr" none [] [Node.elem "td" none [] [],
          Node.elem "td" none [] [Node.text "7"]]]] = .ok (9, 8, 7) := by
  exact ⟨by decide, by decide⟩

/-- C1 amended: when the page lacks the id-marked table and the class-marker
strategy yields nothing, a visible text containing the blocking phrase makes
extraction fail with a block-condition error carrying a 500-character
excerpt (block detection precedes the regex strategy, but not the two
structural strategies). -/
theorem blocked_phrase_fails_extraction (doc : List Node)
    (ht : soupFind isMetricsTable doc = none)
    (hc : classStep doc = none)
    (hp : containsSub (docTextLower doc)
        (strChars "unusual traffic from your computer") = true) :
    parse_metrics doc = .error (.blocked ((docTextLower doc).take 500)) := by
  have h1 : containsSub (docTextLower doc) (strChars "unusual traffic") = true :=
    containsSub_mono ⟨strChars " from your computer", by decide⟩ hp
  simp only [parse_metrics, ht, hc, h1, Bool.true_or, if_true]

theorem blocked_phrase_fails_extraction_witness :
    parse_metrics [Node.text "unusual traffic from your computer"] =
      .error (.blocked ((docTextLower
        [Node.text "unusual traffic from your computer"]).take 500)) :=
  blocked_phrase_fails_extraction [Node.text "unusual traffic from your computer"]
    rfl rfl (by decide)

/-- C10 counterexample: the table is present with fewer than three rows, but
because the (single) readable cell "abc" is non-numeric, the error raised is
the `int()` ValueError, not an out-of-bounds IndexError. -/
theorem short_table_value_error_example :
    parse_metrics [Node.elem "table" (some "gsc_rsb_st") [] [
        Node.elem "tr" none [] [Node.elem "td" none [] [],
          Node.elem "td" none [] [Node.text "abc"]],
        Node.elem "tr" none [] [Node.elem "td" none [] [],
          Node.elem "td" none [] [Node.text "5"]]]] =
      .error (.valueError (strChars "abc")) ∧
    (Except.error (PErr.valueError (strChars "abc")) :
        Except PErr (Int × Int × Int)) ≠ .error .indexError := by
  exact ⟨by decide, by decide⟩

/-- C10 amended: when the id-marked table is present and one of the three
row/cell accesses is out of bounds (fewer than three rows, or a first-three
row with fewer than two data cells), and every cell that is readable before
the failing access is numeric, extraction raises the IndexError — no later
fallback strategy is attempted. -/
theorem short_table_index_error (doc : List Node) (t : Node)
    (ht : soupFind isMetricsTable doc = some t)
    (hnum : ∀ i s, i < 3 → val_from_row (find_all_tag "tr" t) i = .ok s →
      (pyInt? s).isSome = true)
    (hoob : ∃ i, i < 3 ∧ val_from_row (find_all_tag "tr" t) i = .error .indexError) :
    parse_metrics doc = .error .indexError := by
  obtain ⟨i, hi, herr⟩ := hoob
  simp only [parse_metrics, ht, tableStep]
  rcases h0 : val_from_row (find_all_tag "tr" t) 0 with e0 | s0
  · simp only [h0, val_from_row_error h0]
  · obtain ⟨v0, hv0⟩ := Option.isSome_iff_exists.mp (hnum 0 s0 (by omega) h0)
    simp only [h0, hv0]
    rcases h1 : val_from_row (find_all_tag "tr" t) 1 with e1 | s1
    · simp only [h1, val_from_row_error h1]
    · obtain ⟨v1, hv1⟩ := Option.isSome_iff_exists.mp (hnum 1 s1 (by omega) h1)
      simp only [h1, hv1]
      rcases h2 : val_from_row (find_all_tag "tr" t) 2 with e2 | s2
      · simp only [h2, val_from_row_error h2]
      · exfalso
        interval_cases i
        · rw [herr] at h0; exact absurd h0 (by simp)
        · rw [herr] at h1; exact absurd h1 (by simp)
        · rw [herr] at h2; exact absurd h2 (by simp)

theorem short_table_index_error_witness :
    parse_metrics [Node.elem "table" (some "gsc_rsb_st") [] []] =
      .error .indexError :=
  short_table_index_error [Node.elem "table" (some "gsc_rsb_st") [] []]
    (Node.elem "table" (some "gsc_rsb_st") [] []) rfl
    (by intro i s hi hv; exact absurd hv (by simp [val_from_row, find_all_tag,
      childrenOf, allNodes]))
    ⟨0, by omega, rfl⟩

/-- C7: an empty profile identifier fails with the validation error for every
transport (hence before any network call can be observed), the CLI maps it to
exit code 2, and any fetch failure for a non-empty identifier exits 1. -/
theorem empty_user_validation :
    ∀ transport : String → Except String HttpResponse,
      fetch_profile "" transport = .error .emptyUser ∧
      main_run "" transport = 2 ∧
      (∀ u, u ≠ "" → ∀ e, fetch_profile u transport = .error e →
        main_run u transport = 1) := by
  intro t
  refine ⟨rfl, rfl, ?_⟩
  intro u hu e hf
  simp only [main_run, if_neg hu, hf]

theorem empty_user_validation_witness :
    fetch_profile "" (fun _ => .error "down") = .error .emptyUser ∧
    main_run "" (fun _ => .error "down") = 2 ∧
    main_run "x" (fun _ => .error "down") = 1 := by
  obtain ⟨h1, h2, h3⟩ := empty_user_validation (fun _ => .error "down")
  exact ⟨h1, h2, h3 "x" (by decide) (.networkError "down") rfl⟩

/-- C8 counterexample: a received response with the non-2xx status 304 and an
innocuous body is returned as a success by the fetcher (raise_for_status
raises only for 400–599), not as a failure carrying the HTTP status. -/
theorem non2xx_not_always_failure :
    fetch_profile "abc" (fun _ => .ok ⟨304, [Node.text "not modified"]⟩) =
      .ok ([Node.text "not modified"],
        "https://scholar.google.com/citations?user=abc&hl=en") ∧
    (304 ≠ 403 ∧ ¬ (200 ≤ 304 ∧ 304 < 300)) := by
  exact ⟨rfl, by decide⟩

/-- C8 amended: for every response the transport hands back, the fetch fails
with a block-condition error exactly when the status is 403 or the lowered
body contains one of the fixed phrases; otherwise a status in 400–599 yields
a failure carrying that status, and any other status is returned as
success. -/
theorem fetch_block_classification (u : String)
    (t : String → Except String HttpResponse) (r : HttpResponse)
    (hu : u ≠ "") (hr : t (profileUrl u) = .ok r) :
    (fetch_profile u t = .error (.blocked r.status) ↔
      (r.status = 403 ∨ blockedBody r = true)) ∧
    (¬ (r.status = 403 ∨ blockedBody r = true) →
      400 ≤ r.status → r.status < 600 →
      fetch_profile u t = .error (.httpError r.status)) ∧
    (¬ (r.status = 403 ∨ blockedBody r = true) →
      ¬ (400 ≤ r.status ∧ r.status < 600) →
      fetch_profile u t = .ok (r.body, profileUrl u)) := by
  have hfetch : fetch_profile u t =
      (if r.status == 403 || blockedBody r then
        .error (.blocked r.status)
      else if 400 ≤ r.status ∧ r.status < 600 then
        .error (.httpError r.status)
      else .ok (r.body, profileUrl u)) := by
    simp only [fetch_profile, if_neg hu, hr]
  rw [hfetch]
  by_cases hb : r.status = 403 ∨ blockedBody r = true
  · have hcond : (r.status == 403 || blockedBody r) = true := by
      rcases hb with h | h
      · simp [h]
      · simp [h]
    rw [if_pos hcond]
    exact ⟨⟨fun _ => hb, fun _ => rfl⟩,
      fun hc _ _ => absurd hb hc, fun hc _ => absurd hb hc⟩
  · have hcond : ¬ ((r.status == 403 || blockedBody r) = true) := by
      rcases not_or.mp hb with ⟨h1, h2⟩
      simp [h1, h2]
    rw [if_neg hcond]
    refine ⟨⟨fun h => ?_, fun h => absurd h hb⟩,
      fun _ h4 h6 => by rw [if_pos ⟨h4, h6⟩], fun _ hc => by rw [if_neg hc]⟩
    exfalso
    split at h <;> simp_all

theorem fetch_block_classification_witness :
    fetch_profile "x" (fun _ => .ok ⟨403, []⟩) = .error (.blocked 403) := by
  have h := fetch_block_classification "x" (fun _ => .ok ⟨403, []⟩) ⟨403, []⟩
    (by decide) rfl
  exact h.1.mpr (Or.inl rfl)

/-- C3 counterexample: a page whose table cells read "-5", "-2", "-1" makes
extraction succeed with negative values — Python `int` accepts a leading
sign, so success does not guarantee non-negative metrics. -/
theorem negative_metrics_example :
    parse_metrics [Node.elem "table" (some "gsc_rsb_st") [] [
        Node.elem "tr" none [] [Node.elem "td" none [] [],
          Node.elem "td" none [] [Node.text "-5"]],
        Node.elem "tr" none [] [Node.elem "td" none [] [],
          Node.elem "td" none [] [Node.text "-2"]],
        Node.elem "tr" none [] [Node.elem "td" none [] [],
          Node.elem "td" none [] [Node.text "-1"]]]] = .ok (-5, -2, -1) ∧
    ¬ (0 ≤ (-5 : Int)) := by
  exact ⟨by decide, by decide⟩

/-- C3 amended: the three returned metric values are integers that may be
negative when a cell text carries a minus sign; whenever no text node of the
page contains the character '-', a successful extraction returns three
non-negative values (values recovered by the regex strategy are non-negative
unconditionally, since its capture group can hold only digits and commas). -/
theorem metrics_nonneg_without_minus (doc : List Node) (c h i : Int)
    (hm : ∀ s ∈ textsOf doc, ('-' : Char) ∉ s)
    (hp : parse_metrics doc = .ok (c, h, i)) :
    0 ≤ c ∧ 0 ≤ h ∧ 0 ≤ i := by
  simp only [parse_metrics] at hp
  cases htb : soupFind isMetricsTable doc with
  | some table =>
    simp only [htb] at hp
    have htbm : table ∈ allNodes doc := List.mem_of_find?_eq_some htb
    obtain ⟨s0, s1, s2, hv0, hc0, hv1, hc1, hv2, hc2⟩ := tableStep_ok hp
    exact ⟨pyInt?_nonneg (val_from_row_noMinus htbm hm hv0) hc0,
      pyInt?_nonneg (val_from_row_noMinus htbm hm hv1) hc1,
      pyInt?_nonneg (val_from_row_noMinus htbm hm hv2) hc2⟩
  | none =>
    simp only [htb] at hp
    cases hcs : classStep doc with
    | some v =>
      simp only [hcs] at hp
      have hv : v = (c, h, i) := by injection hp
      exact classStep_nonneg hm (hv ▸ hcs)
    | none =>
      simp only [hcs] at hp
      split at hp
      · exact absurd hp (by simp)
      · obtain ⟨f1, f2, f3⟩ := regexStep_ok hp
        exact ⟨find_num_nonneg f1, find_num_nonneg f2, find_num_nonneg f3⟩

theorem metrics_nonneg_without_minus_witness :
    0 ≤ (7 : Int) ∧ 0 ≤ (6 : Int) ∧ 0 ≤ (5 : Int) :=
  metrics_nonneg_without_minus
    [Node.elem "table" (some "gsc_rsb_st") [] [
        Node.elem "tr" none [] [Node.elem "td" none [] [],
          Node.elem "td" none [] [Node.text "7"]],
        Node.elem "tr" none [] [Node.elem "td" none [] [],
          Node.elem "td" none [] [Node.text "6"]],
        Node.elem "tr" none [] [Node.elem "td" none [] [],
          Node.elem "td" none [] [Node.text "5"]]]]
    7 6 5 (by decide) (by decide)

end Scholar
